import Mathlib

/-!
Verification of the client-side state logic of the wise-manage-hub admin panel.

The TypeScript source is shallowly embedded: each React state update or pure
helper becomes a Lean function on an explicit state value, asynchronous network
calls become an explicit result parameter (success/failure of the HTTP
response), and JavaScript string operations used by the code (`trim`,
`toLowerCase`, `includes`, truthiness-based `||`) are modelled as executable
Lean functions on `String`.
-/

namespace WiseManage

/-- A user record, from the `User` shape consumed by `UsersPage.tsx`
(`id`, `first_name`, `last_name`, `email`, `avatar`). -/
structure User where
  id : Nat
  first_name : String
  last_name : String
  email : String
  avatar : String
deriving DecidableEq, Repr

/-- The editable-field payload sent by the edit form (`UpdateUserData`):
the three draft fields held in `UserEditModal`'s `formData` state. -/
structure UpdateUserData where
  first_name : String
  last_name : String
  email : String
deriving DecidableEq, Repr

/-! ## JavaScript string primitives used by the source -/

/-- A character the JavaScript `String.prototype.trim` removes
(ASCII whitespace suffices for the strings in play). -/
def isWsChar (c : Char) : Bool :=
  c = ' ' || c = '\t' || c = '\n' || c = '\r'

/-- JavaScript `s.trim()`: drop leading and trailing whitespace. -/
def jsTrim (s : String) : String :=
  ⟨(((s.data.dropWhile isWsChar).reverse.dropWhile isWsChar).reverse)⟩

/-- JavaScript `s.toLowerCase()` (ASCII case folding via `Char.toLower`). -/
def jsToLower (s : String) : String :=
  ⟨s.data.map Char.toLower⟩

/-- Substring containment on character lists: `pat` occurs contiguously in `l`. -/
def charsContains (l pat : List Char) : Bool :=
  match l with
  | [] => pat.isEmpty
  | c :: t => pat.isPrefixOf (c :: t) || charsContains t pat

/-- JavaScript `s.includes(pat)`. -/
def jsIncludes (s pat : String) : Bool :=
  charsContains s.data pat.data

/-- JavaScript `a || b` on strings: the empty string is falsy. -/
def jsOr (a b : String) : String :=
  if a = "" then b else a

/-! ## Resource List State: the search-filter effect (`UsersPage.tsx` 54-67) -/

/-- The predicate the filter effect applies to one user, given the
already-lowercased query (`UsersPage.tsx` 60-63). -/
def matchesQuery (query : String) (user : User) : Bool :=
  jsIncludes (jsToLower user.first_name) query ||
  jsIncludes (jsToLower user.last_name) query ||
  jsIncludes (jsToLower user.email) query

/-- The search-filter effect of `UsersPage.tsx` (lines 54-67): when the trimmed
query is empty the filtered view is the whole page; otherwise the query is
`searchQuery.toLowerCase()` — note the source lowercases but does not trim the
query it matches with. -/
def filterEffect (searchQuery : String) (users : List User) : List User :=
  if jsTrim searchQuery = "" then users
  else
    let query := jsToLower searchQuery
    users.filter (fun user => matchesQuery query user)

/-- The filtered view as the specification words it: the query compared with is
`lowercase(trim(t))`.  Stated for comparison with `filterEffect`, which is the
embedding of the source. -/
def specFilter (t : String) (users : List User) : List User :=
  let tbar := jsToLower (jsTrim t)
  if tbar = "" then users
  else users.filter (fun user => matchesQuery tbar user)

/-! ## Resource List State: local mutation after save (`UsersPage.tsx` 91-102) -/

/-- The per-record merge performed by `saveUserChanges` after a successful
update: each editable field becomes `userData.field || user.field`
(JavaScript truthiness, so an empty-string payload field keeps the prior
value). -/
def mergeUser (userData : UpdateUserData) (user : User) : User :=
  { user with
    first_name := jsOr userData.first_name user.first_name
    last_name := jsOr userData.last_name user.last_name
    email := jsOr userData.email user.email }

/-- The `setUsers` updater of `saveUserChanges` (`UsersPage.tsx` 91-102):
map over the list, merging the payload into the record whose `id` matches. -/
def applyUpdate (users : List User) (id : Nat) (userData : UpdateUserData) :
    List User :=
  users.map (fun user => if user.id = id then mergeUser userData user else user)

/-! ## Resource List State: local removal after delete (`UsersPage.tsx` 131) -/

/-- The `setUsers` updater of `confirmDeleteUser` on success
(`UsersPage.tsx` 131): keep every record whose `id` differs. -/
def applyDelete (users : List User) (id : Nat) : List User :=
  users.filter (fun user => user.id != id)

/-! ## Pagination handlers (`UsersPage.tsx` 143-153) -/

/-- The page-related component state of `UsersPage`. -/
structure PageState where
  currentPage : Nat
  totalPages : Nat
deriving DecidableEq, Repr

/-- `goToNextPage` (`UsersPage.tsx` 143-147): increment only while
`currentPage < totalPages`. -/
def goToNextPage (s : PageState) : PageState :=
  if s.currentPage < s.totalPages then
    { s with currentPage := s.currentPage + 1 }
  else s

/-- `goToPrevPage` (`UsersPage.tsx` 149-153): decrement only while
`currentPage > 1`. -/
def goToPrevPage (s : PageState) : PageState :=
  if 1 < s.currentPage then
    { s with currentPage := s.currentPage - 1 }
  else s

/-! ## Resource List State: page fetch (`UsersPage.tsx` 28-47) -/

/-- The list-related component state of `UsersPage` touched by `fetchUsers`. -/
structure ListState where
  users : List User
  filteredUsers : List User
  totalPages : Nat
  loading : Bool
deriving DecidableEq, Repr

/-- The response body of the list endpoint (`UserResponse`): a page of
records plus `total_pages`. -/
structure UserResponse where
  data : List User
  total_pages : Nat
deriving DecidableEq, Repr

/-- `fetchUsers` (`UsersPage.tsx` 28-47) with the network outcome made
explicit: a non-ok response or network failure throws before any list-state
setter runs, and the catch block only raises a toast, so only `loading` is
written; on success the three list fields are replaced wholesale. -/
def fetchUsers (s : ListState) (resp : Except String UserResponse) : ListState :=
  match resp with
  | .ok d =>
      { users := d.data, filteredUsers := d.data
        totalPages := d.total_pages, loading := false }
  | .error _ => { s with loading := false }

/-! ## Edit Form: submission pipeline (`UserEditModal.tsx`) -/

/-- Modelled from the spec: the edit form's inputs carry `required` (all
three) and `type="email"` (the email input) in `UserEditModal.tsx`, and the
browser's native constraint validation that those attributes trigger is not
repository code.  Following the spec's words, the email constraint is a basic
`local@domain` shape: exactly one `@` with non-empty text on both sides. -/
def isBasicEmail (s : String) : Bool :=
  match s.data.splitOn '@' with
  | [l, d] => !l.isEmpty && !d.isEmpty
  | _ => false

/-- The form is valid exactly when every `required` input is non-empty and
the email input satisfies its `type="email"` constraint. -/
def formValid (f : UpdateUserData) : Bool :=
  f.first_name != "" && f.last_name != "" && f.email != "" &&
    isBasicEmail f.email

/-- Outcome of one edit-form submission attempt. -/
inductive SubmitOutcome where
  | validationError
  | networkCall (id : Nat) (payload : UpdateUserData)
deriving DecidableEq, Repr

/-- One submission attempt of the edit form: native constraint validation
runs before the `submit` event, so `handleSubmit` (and with it the `onSave`
network call, `UserEditModal.tsx` 44-60) only fires on a valid form; an
invalid form stops locally with a validation report. -/
def submitForm (id : Nat) (formData : UpdateUserData) : SubmitOutcome :=
  if formValid formData then .networkCall id formData else .validationError

/-! ## Edit Form: modal close behaviour (`UserEditModal.tsx` 63, 116-120) -/

/-- The open/submitting flags of the edit modal (`isOpen` lives in
`UsersPage`, `isSubmitting` in `UserEditModal`). -/
structure EditModalState where
  isOpen : Bool
  isSubmitting : Bool
deriving DecidableEq, Repr

/-- Whether the Cancel button is disabled, from its props in
`UserEditModal.tsx` 117-119: the button carries no `disabled` attribute, so
it is enabled in every state. -/
def cancelDisabled (_isSubmitting : Bool) : Bool :=
  false

/-- Whether the submit button is disabled (`UserEditModal.tsx` 120):
`disabled={isSubmitting}`. -/
def submitDisabled (isSubmitting : Bool) : Bool :=
  isSubmitting

/-- Clicking Cancel (or dismissing the dialog, whose `onOpenChange` is the
same `onClose`): when the control is enabled it invokes `onClose`, which is
`() => setIsEditModalOpen(false)` in `UsersPage.tsx` 227. -/
def clickCancel (s : EditModalState) : EditModalState :=
  if cancelDisabled s.isSubmitting then s else { s with isOpen := false }

/-! ## Delete Confirmation Flow (`UserDeleteDialog.tsx`, `UsersPage.tsx` 115-140) -/

/-- Outcome of the HTTP delete request. -/
inductive NetResult where
  | success
  | failure
deriving DecidableEq, Repr

/-- `confirmDeleteUser` (`UsersPage.tsx` 115-140) with the network outcome
explicit.  Result: the new `users` list and whether the call threw.  With no
target it returns at once; on a non-ok response it throws before the
`setUsers` call, leaving the list untouched; on success it filters the
target's id out. -/
def confirmDeleteUser (users : List User) (deletingUser : Option User)
    (res : NetResult) : List User × Bool :=
  match deletingUser with
  | none => (users, false)
  | some target =>
    match res with
    | .success => (applyDelete users target.id, false)
    | .failure => (users, true)

/-- The state the delete flow touches: the list plus the dialog-open flag. -/
structure DeleteFlowState where
  users : List User
  deletingUser : Option User
  dialogOpen : Bool
deriving DecidableEq, Repr

/-- `handleConfirm` (`UserDeleteDialog.tsx` 30-38): `await onConfirm()`
inside `try`, with `onClose()` in the `finally` block, so whether
`confirmDeleteUser` throws or not the dialog is closed afterwards
(`onClose` is `() => setIsDeleteDialogOpen(false)`, `UsersPage.tsx` 234). -/
def handleConfirm (s : DeleteFlowState) (res : NetResult) : DeleteFlowState :=
  let r := confirmDeleteUser s.users s.deletingUser res
  { users := r.1, deletingUser := s.deletingUser, dialogOpen := false }

/-! ## Session Store (`AuthContext`, `src/unnamed/part_001`) -/

/-- The session state: token plus the derived authenticated flag. -/
structure SessionState where
  token : Option String
  isAuthenticated : Bool
deriving DecidableEq, Repr

/-- The response of the authentication endpoint as `login` reads it:
`ok` status, `token` on success, optional `error` message on failure. -/
structure LoginResponse where
  ok : Bool
  tokenField : Option String
  errorField : Option String
deriving DecidableEq, Repr

/-- The user-visible notification `login` raises. -/
inductive LoginNote where
  | successNote
  | failureNote (description : String)
deriving DecidableEq, Repr

/-- `login` from the auth context: on a non-ok response it throws
`new Error(errorData.error || 'Login failed')` — JavaScript `||` treats a
missing or empty `error` as falsy — and the catch block surfaces that
message without touching `token` or `isAuthenticated`; on success it stores
the token and marks the session authenticated. -/
def login (s : SessionState) (resp : LoginResponse) : SessionState × LoginNote :=
  if resp.ok then
    ({ token := some (resp.tokenField.getD ""), isAuthenticated := true },
      .successNote)
  else
    (s, .failureNote (jsOr ((resp.errorField).getD "") "Login failed"))

/-! ## Sample records used by witnesses and counterexamples -/

/-- Sample record 1. -/
def sampleAnna : User := ⟨1, "Anna", "Bell", "anna@x.com", "a.png"⟩

/-- Sample record 2. -/
def sampleBob : User := ⟨2, "Bob", "Stone", "bob@x.com", "b.png"⟩

/-- Sample record 3. -/
def sampleCid : User := ⟨3, "Cid", "Vale", "cid@x.com", "c.png"⟩

/-- Sample edit payload with empty first and email fields. -/
def samplePayload : UpdateUserData := ⟨"", "Nova", ""⟩

/-! ## Claims -/

/-- C1, counterexample.  The claim says the filter matches against
`lowercase(trim(t))`, but the source matches against `searchQuery.toLowerCase()`
without trimming: for the term `" a"` and a page holding Anna Bell, the code
filters everything out while the claimed set keeps the record. -/
theorem C1_counterexample :
    filterEffect " a" [sampleAnna] ≠ specFilter " a" [sampleAnna] := by
  decide

/-- C1, amended.  When the trimmed term is empty the filtered view is the whole
page; when it is non-empty, a record is in the filtered view iff it is on the
page and the lowercased but UNtrimmed term occurs in the lowercase of its
first name, last name, or email. -/
theorem C1_filterEffect_spec (t : String) (users : List User) :
    (jsTrim t = "" → filterEffect t users = users) ∧
    (jsTrim t ≠ "" → ∀ u, u ∈ filterEffect t users ↔
      u ∈ users ∧ matchesQuery (jsToLower t) u = true) := by
  constructor
  · intro h
    simp [filterEffect, h]
  · intro h u
    simp [filterEffect, h, List.mem_filter]

/-- C1, witness for `C1_filterEffect_spec`. -/
theorem C1_filterEffect_spec_witness :
    filterEffect "   " [sampleAnna, sampleBob] = [sampleAnna, sampleBob] ∧
    (sampleAnna ∈ filterEffect "ann" [sampleAnna, sampleBob] ↔
      sampleAnna ∈ [sampleAnna, sampleBob] ∧
        matchesQuery (jsToLower "ann") sampleAnna = true) :=
  ⟨(C1_filterEffect_spec "   " [sampleAnna, sampleBob]).1 (by decide),
   (C1_filterEffect_spec "ann" [sampleAnna, sampleBob]).2 (by decide) sampleAnna⟩

/-- C2.  A submission whose draft has an empty field, or whose email fails the
basic `local@domain` shape, stops at constraint validation: the outcome is the
validation report and is never the network call. -/
theorem C2_invalid_submit_no_network (id : Nat) (f : UpdateUserData)
    (h : f.first_name = "" ∨ f.last_name = "" ∨ f.email = "" ∨
      isBasicEmail f.email = false) :
    submitForm id f = .validationError ∧
      ∀ j p, submitForm id f ≠ SubmitOutcome.networkCall j p := by
  have hv : formValid f = false := by
    unfold formValid
    rcases h with h | h | h | h <;> simp [h]
  refine ⟨?_, ?_⟩
  · simp [submitForm, hv]
  · intro j p
    simp [submitForm, hv]

/-- C2, witness for `C2_invalid_submit_no_network`. -/
theorem C2_invalid_submit_no_network_witness :
    submitForm 1 ⟨"", "Doe", "a@b"⟩ = .validationError :=
  (C2_invalid_submit_no_network 1 ⟨"", "Doe", "a@b"⟩ (Or.inl rfl)).1

/-- C3.  `applyUpdate` keeps the length, rewrites exactly the position holding
the matching id to the merge of the payload over the prior record, leaves every
other position unchanged, and is the identity when no record carries the id. -/
theorem C3_applyUpdate_spec (users : List User) (id : Nat) (f : UpdateUserData) :
    (applyUpdate users id f).length = users.length ∧
    (∀ i : Nat, (applyUpdate users id f)[i]? =
      (users[i]?).map (fun u => if u.id = id then mergeUser f u else u)) ∧
    ((∀ u ∈ users, u.id ≠ id) → applyUpdate users id f = users) := by
  refine ⟨by simp [applyUpdate], ?_, ?_⟩
  · intro i
    simp [applyUpdate, List.getElem?_map]
  · intro h
    induction users with
    | nil => rfl
    | cons a t ih =>
      have ha : a.id ≠ id := h a (by simp)
      have ht : applyUpdate t id f = t := ih (fun u hu => h u (by simp [hu]))
      simp only [applyUpdate, List.map_cons, if_neg ha]
      simp only [applyUpdate] at ht
      rw [ht]

/-- C3, witness for `C3_applyUpdate_spec`. -/
theorem C3_applyUpdate_spec_witness :
    applyUpdate [sampleAnna, sampleBob] 99 samplePayload =
      [sampleAnna, sampleBob] :=
  (C3_applyUpdate_spec [sampleAnna, sampleBob] 99 samplePayload).2.2 (by decide)

/-- Helper: deleting an id no record carries leaves the list unchanged. -/
theorem applyDelete_eq_self_of_forall (users : List User) (id : Nat)
    (h : ∀ u ∈ users, u.id ≠ id) : applyDelete users id = users := by
  unfold applyDelete
  apply List.filter_eq_self.mpr
  intro u hu
  simpa using h u hu

/-- Helper: with pairwise-distinct ids and a record carrying the id present,
`applyDelete` removes exactly one element. -/
theorem applyDelete_length_of_mem (users : List User) (id : Nat)
    (hnd : (users.map User.id).Nodup) :
    (∃ u ∈ users, u.id = id) → (applyDelete users id).length + 1 = users.length := by
  induction users with
  | nil =>
    intro h
    simp at h
  | cons a t ih =>
    intro hmem
    rw [List.map_cons, List.nodup_cons] at hnd
    by_cases ha : a.id = id
    · have ht : applyDelete t id = t := by
        apply applyDelete_eq_self_of_forall
        intro u hu hui
        exact hnd.1 (List.mem_map.mpr ⟨u, hu, hui.trans ha.symm⟩)
      have hfa : (a.id != id) = false := by simp [ha]
      simp only [applyDelete, List.filter_cons, hfa] at ht ⊢
      simp [ht]
    · obtain ⟨u, hu, hui⟩ := hmem
      have hut : u ∈ t := by
        rcases List.mem_cons.mp hu with rfl | h
        · exact absurd hui ha
        · exact h
      have hrec := ih hnd.2 ⟨u, hut, hui⟩
      have hfa : (a.id != id) = true := by simp [ha]
      simp [applyDelete, List.filter_cons, hfa] at hrec ⊢
      omega

/-- C4.  `applyDelete` removes exactly one record when a record with the id is
present in a list of pairwise-distinct ids, keeps exactly the records with a
different id, is the identity when no record carries the id, and is
idempotent. -/
theorem C4_applyDelete_spec (users : List User) (id : Nat) :
    ((users.map User.id).Nodup → (∃ u ∈ users, u.id = id) →
      (applyDelete users id).length + 1 = users.length) ∧
    (∀ u, u ∈ applyDelete users id ↔ u ∈ users ∧ u.id ≠ id) ∧
    ((∀ u ∈ users, u.id ≠ id) → applyDelete users id = users) ∧
    applyDelete (applyDelete users id) id = applyDelete users id := by
  refine ⟨applyDelete_length_of_mem users id, ?_, applyDelete_eq_self_of_forall users id, ?_⟩
  · intro u
    simp [applyDelete, List.mem_filter]
  · apply applyDelete_eq_self_of_forall
    intro u hu
    have := List.mem_filter.mp hu
    simpa using this.2

/-- C4, witness for `C4_applyDelete_spec`. -/
theorem C4_applyDelete_spec_witness :
    (applyDelete [sampleAnna, sampleBob] 1).length + 1 =
      ([sampleAnna, sampleBob] : List User).length ∧
    applyDelete [sampleAnna] 99 = [sampleAnna] :=
  ⟨(C4_applyDelete_spec [sampleAnna, sampleBob] 1).1 (by decide) (by decide),
   (C4_applyDelete_spec [sampleAnna] 99).2.2.1 (by decide)⟩

/-- C5.  After `handleConfirm` the dialog is closed whatever the network
outcome, and on a failed delete the local list is exactly the prior list (so
the targeted record is still present). -/
theorem C5_handleConfirm_spec (s : DeleteFlowState) (res : NetResult) :
    (handleConfirm s res).dialogOpen = false ∧
    (res = .failure → (handleConfirm s res).users = s.users) ∧
    (res = .failure → ∀ u ∈ s.users, u ∈ (handleConfirm s res).users) := by
  obtain ⟨us, du, dlg⟩ := s
  refine ⟨rfl, ?_, ?_⟩
  · intro h
    subst h
    cases du <;> rfl
  · intro h u hu
    subst h
    cases du <;> simp [handleConfirm, confirmDeleteUser, hu]

/-- C5, witness for `C5_handleConfirm_spec`: the spec's scenario, a rejected
delete of record id 3. -/
theorem C5_handleConfirm_spec_witness :
    (handleConfirm ⟨[sampleCid], some sampleCid, true⟩ .failure).dialogOpen = false ∧
    (handleConfirm ⟨[sampleCid], some sampleCid, true⟩ .failure).users = [sampleCid] :=
  ⟨(C5_handleConfirm_spec ⟨[sampleCid], some sampleCid, true⟩ .failure).1,
   (C5_handleConfirm_spec ⟨[sampleCid], some sampleCid, true⟩ .failure).2.1 rfl⟩

/-- C6, counterexample.  The claim says close is ignored while Submitting, but
the Cancel control carries no `disabled` attribute: clicking it in the
Submitting state changes the state (it closes the modal). -/
theorem C6_counterexample :
    clickCancel { isOpen := true, isSubmitting := true } ≠
      { isOpen := true, isSubmitting := true } := by
  decide

/-- C6, amended.  Close is permitted in every state of the edit modal,
including Submitting: the Cancel control is never disabled and clicking it
always closes the modal; only the submit control is disabled while
Submitting. -/
theorem C6_close_always_enabled (s : EditModalState) :
    cancelDisabled s.isSubmitting = false ∧
    (clickCancel s).isOpen = false ∧
    submitDisabled true = true := by
  refine ⟨rfl, ?_, rfl⟩
  simp [clickCancel, cancelDisabled]

/-- C7.  A failed login leaves the session state exactly as it was — a null
token stays null, an unauthenticated session stays unauthenticated — and the
surfaced notification carries the server message when one is present and
non-empty, otherwise the generic message. -/
theorem C7_login_failure (s : SessionState) (resp : LoginResponse)
    (hfail : resp.ok = false) :
    (login s resp).1 = s ∧
    (s.token = none → (login s resp).1.token = none) ∧
    (s.isAuthenticated = false → (login s resp).1.isAuthenticated = false) ∧
    (∀ msg, resp.errorField = some msg → msg ≠ "" →
      (login s resp).2 = .failureNote msg) ∧
    ((resp.errorField = none ∨ resp.errorField = some "") →
      (login s resp).2 = .failureNote "Login failed") := by
  have h1 : (login s resp).1 = s := by
    simp [login, hfail]
  refine ⟨h1, fun h => by rw [h1, h], fun h => by rw [h1, h], ?_, ?_⟩
  · intro msg hmsg hne
    simp [login, hfail, hmsg, jsOr, hne]
  · intro h
    rcases h with h | h <;> simp [login, hfail, h, jsOr]

/-- C7, witness for `C7_login_failure`. -/
theorem C7_login_failure_witness :
    (login ⟨none, false⟩ ⟨false, none, some "Missing password"⟩).1 =
      (⟨none, false⟩ : SessionState) ∧
    (login ⟨none, false⟩ ⟨false, none, some "Missing password"⟩).2 =
      .failureNote "Missing password" :=
  ⟨(C7_login_failure ⟨none, false⟩ ⟨false, none, some "Missing password"⟩ rfl).1,
   (C7_login_failure ⟨none, false⟩ ⟨false, none, some "Missing password"⟩ rfl).2.2.2.1
     "Missing password" rfl (by decide)⟩

/-- C8.  A next request whose target page exceeds `totalPages` and a previous
request whose target is below 1 are no-ops, and from any in-range page both
handlers keep the page inside `[1, totalPages]` and keep `totalPages`. -/
theorem C8_page_bounds (s : PageState) :
    (s.totalPages ≤ s.currentPage → goToNextPage s = s) ∧
    (s.currentPage ≤ 1 → goToPrevPage s = s) ∧
    (1 ≤ s.currentPage → s.currentPage ≤ s.totalPages →
      1 ≤ (goToNextPage s).currentPage ∧
      (goToNextPage s).currentPage ≤ s.totalPages ∧
      1 ≤ (goToPrevPage s).currentPage ∧
      (goToPrevPage s).currentPage ≤ s.totalPages ∧
      (goToNextPage s).totalPages = s.totalPages ∧
      (goToPrevPage s).totalPages = s.totalPages) := by
  refine ⟨?_, ?_, ?_⟩
  · intro h
    unfold goToNextPage
    rw [if_neg (by omega)]
  · intro h
    unfold goToPrevPage
    rw [if_neg (by omega)]
  · intro h1 h2
    by_cases hn : s.currentPage < s.totalPages <;>
      by_cases hp : 1 < s.currentPage <;>
        simp [goToNextPage, goToPrevPage, hn, hp] <;> omega

/-- C8, witness for `C8_page_bounds`. -/
theorem C8_page_bounds_witness :
    goToNextPage ⟨2, 2⟩ = (⟨2, 2⟩ : PageState) ∧
    goToPrevPage ⟨1, 2⟩ = (⟨1, 2⟩ : PageState) :=
  ⟨(C8_page_bounds ⟨2, 2⟩).1 (by decide),
   (C8_page_bounds ⟨1, 2⟩).2.1 (by decide)⟩

/-- C9.  A failed page fetch leaves the record list, the filtered view and
`totalPages` exactly as they were. -/
theorem C9_fetch_failure_preserves_state (s : ListState) (e : String) :
    (fetchUsers s (.error e)).users = s.users ∧
    (fetchUsers s (.error e)).filteredUsers = s.filteredUsers ∧
    (fetchUsers s (.error e)).totalPages = s.totalPages :=
  ⟨rfl, rfl, rfl⟩

/-- C10.  In the local update applied after a successful save, the record at
the matching position becomes the merge of the payload over the prior record,
and every payload field holding the empty string leaves the corresponding
field at its prior value. -/
theorem C10_empty_payload_field_kept (users : List User) (id : Nat)
    (f : UpdateUserData) (i : Nat) (u : User)
    (hu : users[i]? = some u) (hid : u.id = id) :
    (applyUpdate users id f)[i]? = some (mergeUser f u) ∧
    (f.first_name = "" → (mergeUser f u).first_name = u.first_name) ∧
    (f.last_name = "" → (mergeUser f u).last_name = u.last_name) ∧
    (f.email = "" → (mergeUser f u).email = u.email) := by
  refine ⟨?_, fun h => ?_, fun h => ?_, fun h => ?_⟩
  · simp [applyUpdate, List.getElem?_map, hu, hid]
  all_goals simp [mergeUser, jsOr, h]

/-- C10, witness for `C10_empty_payload_field_kept`. -/
theorem C10_empty_payload_field_kept_witness :
    (applyUpdate [sampleAnna] 1 samplePayload)[0]? =
      some (mergeUser samplePayload sampleAnna) ∧
    (mergeUser samplePayload sampleAnna).first_name = sampleAnna.first_name ∧
    (mergeUser samplePayload sampleAnna).email = sampleAnna.email := by
  have h := C10_empty_payload_field_kept [sampleAnna] 1 samplePayload 0 sampleAnna
    rfl rfl
  exact ⟨h.1, h.2.1 rfl, h.2.2.2 rfl⟩

end WiseManage
